import Mathlib

/-!
Shallow embedding of `src/ProcessKiller.c` (the vold "mountd process killer").

Strings are modelled as `List Char` of their bytes, without the terminating
NUL; C strings carry no interior NUL, so `strncmp(path, mountPoint, strlen
mountPoint) == 0` is exactly `mountPoint.isPrefixOf path`, and reading the
byte `path[length]` of a C string is `path[length]?` where `none` stands for
the terminating NUL (end-of-string).

The kernel-exported `/proc` state observed during one call is reified as
explicit data: a `PathView` is what `lstat` and `readlink` report for one
path, a `ProcState` is the per-pid view (fd directory listing, maps lines as
`fgets` returns them — i.e. each line keeps its trailing newline when the
file has one — cwd/root/exe symlinks, and the open/read outcome on the
cmdline file), and the Evictor receives the `/proc` directory listing.
`none` throughout models the corresponding syscall failing (ENOENT, EACCES,
...).  Machine integers follow the source's `int`: the pid parser's
accumulator is reduced to the 32-bit two's-complement range at each step by
`wrap32`.
-/

set_option autoImplicit false

namespace ProcessKiller

/-- `#define PATH_MAX 4096` from the C source. -/
def PATH_MAX : Nat := 4096

/-- Embedding of `PathMatchesMountPoint` (src/ProcessKiller.c lines 56-70).
`strncmp` over the first `strlen mountPoint` bytes is `isPrefixOf`;
`path[length]` is `path[length]?`, with `none` the terminating NUL. -/
def PathMatchesMountPoint (path mountPoint : List Char) : Bool :=
  let length := mountPoint.length
  if decide (length > 1) && mountPoint.isPrefixOf path then
    -- we need to do extra checking if mountPoint does not end in a '/'
    if mountPoint[length - 1]? == some '/' then
      true
    else
      -- no trailing slash: require a path boundary right after the prefix
      decide (path[length]? = none) || decide (path[length]? = some '/')
  else
    false

/-- What `lstat` reports in `st_mode & S_IFMT` for a path. -/
inductive FileKind where
  | regular
  | directory
  | symlink
  | other
  deriving DecidableEq

/-- The observable state of one filesystem path during the call: what `lstat`
returns (`none` = failure), and what `readlink` would return at read time
(`none` = failure; the link may vanish between the two syscalls). -/
structure PathView where
  lstatKind : Option FileKind
  readlinkResult : Option (List Char)
  deriving DecidableEq

/-- Embedding of `ReadSymLink` (src/ProcessKiller.c lines 38-54): `lstat` must
succeed and report a symlink; `readlink(path, link, PATH_MAX - 1)` stores at
most `PATH_MAX - 1` bytes and its return value `length` is that stored count,
so `length <= 0` is exactly an empty target, and `link[length] = 0` makes the
result the first `length` bytes of the target. -/
def ReadSymLink (v : PathView) : Option (List Char) :=
  match v.lstatKind with
  | none => none
  | some k =>
    match k with
    | FileKind.symlink =>
      match v.readlinkResult with
      | none => none
      | some target =>
        if target.length = 0 then none
        else some (target.take (PATH_MAX - 1))
    | _ => none

/-- The observable outcome of the `open`/`read` pair on
`/proc/<pid>/cmdline`: the `open` can fail, the `read` can fail after a
successful `open`, or the `read` succeeds with the file bytes. -/
inductive CmdlineRead where
  | openFailed
  | readFailed
  | content (bytes : List Char)
  deriving DecidableEq

/-- The string `sprintf(buffer, "/proc/%d/cmdline", pid)` leaves in the
buffer; `%d` prints the `int` in decimal with a leading minus when
negative, which is `toString` on `Int`. -/
def procCmdlinePath (pid : Int) : List Char :=
  ("/proc/" ++ toString pid ++ "/cmdline").toList

/-- Embedding of `GetProcessName` (src/ProcessKiller.c lines 72-84).  When
the `open` fails the buffer is overwritten with `"???"`.  When the `open`
succeeds but the `read` then fails, `length` is `-1` and `buffer[length] = 0`
is an out-of-bounds write of the byte before the buffer; the buffer itself
still holds the path `sprintf` put there, and that is what the caller sees.
When the `read` succeeds it yields the first `PATH_MAX - 1` bytes,
`buffer[length] = 0` terminates them, and the buffer is then used as a C
string, so the observable value stops at the first interior NUL. -/
def GetProcessName (pid : Int) (r : CmdlineRead) : List Char :=
  match r with
  | CmdlineRead.openFailed => "???".toList
  | CmdlineRead.readFailed => procCmdlinePath pid
  | CmdlineRead.content bytes =>
    (bytes.take (PATH_MAX - 1)).takeWhile (fun ch => ch != Char.ofNat 0)

/-- Per-pid observable `/proc` state during one probe pass. -/
structure ProcState where
  /-- `/proc/<pid>/fd` listing: `none` when `opendir` fails, else the entries
  in `readdir` order, each a name with the `PathView` of that fd symlink. -/
  fdDir : Option (List (List Char × PathView))
  /-- `/proc/<pid>/maps`: `none` when `fopen` fails, else the lines exactly as
  successive `fgets` calls return them (trailing newline included). -/
  maps : Option (List (List Char))
  /-- `/proc/<pid>/cwd` -/
  cwd : PathView
  /-- `/proc/<pid>/root` -/
  root : PathView
  /-- `/proc/<pid>/exe` -/
  exe : PathView
  /-- the `open`/`read` outcome on `/proc/<pid>/cmdline` -/
  cmdline : CmdlineRead
  deriving DecidableEq

/-- One iteration of the `readdir` loop of `CheckFileDescriptorSymLinks`
(src/ProcessKiller.c lines 106-121): skip `.` and `..`, read the fd symlink,
and test its target against the mount point. -/
def checkFdEntry (mountPoint : List Char) (e : List Char × PathView) : Bool :=
  if e.1 = ".".toList ∨ e.1 = "..".toList then false
  else
    match ReadSymLink e.2 with
    | some link => PathMatchesMountPoint link mountPoint
    | none => false

/-- Embedding of `CheckFileDescriptorSymLinks` (src/ProcessKiller.c lines
86-125): `opendir` failure returns 0; otherwise the loop runs until a match
(`!fileOpen` short-circuit), which is `List.any`. -/
def CheckFileDescriptorSymLinks (st : ProcState) (mountPoint : List Char) : Bool :=
  match st.fdDir with
  | none => false
  | some entries => entries.any (checkFdEntry mountPoint)

/-- `strchr(buffer, '/')`: the suffix of the line starting at its first
`'/'`, or `none` when the line has no `'/'`. -/
def firstSlashSuffix : List Char → Option (List Char)
  | [] => none
  | c :: s => if c = '/' then some (c :: s) else firstSlashSuffix s

/-- One iteration of the `fgets` loop of `CheckFileMaps` (src/ProcessKiller.c
lines 138-149): locate the first `'/'` of the line and match the suffix from
there against the mount point. -/
def checkMapsLine (mountPoint : List Char) (line : List Char) : Bool :=
  match firstSlashSuffix line with
  | some path => PathMatchesMountPoint path mountPoint
  | none => false

/-- Embedding of `CheckFileMaps` (src/ProcessKiller.c lines 127-153): `fopen`
failure returns 0; otherwise lines are scanned until a match (`!mapOpen`). -/
def CheckFileMaps (st : ProcState) (mountPoint : List Char) : Bool :=
  match st.maps with
  | none => false
  | some lines => lines.any (checkMapsLine mountPoint)

/-- Embedding of `CheckSymLink` (src/ProcessKiller.c lines 155-170) for one
of `cwd`/`root`/`exe`: read the symlink and match its target. -/
def CheckSymLink (v : PathView) (mountPoint : List Char) : Bool :=
  match ReadSymLink v with
  | some link => PathMatchesMountPoint link mountPoint
  | none => false

/-- Two's-complement reduction of an integer to the 32-bit `int` range
`[-2^31, 2^31)` (2147483648 = 2^31, 4294967296 = 2^32): the value
`10 * result + digit` takes in the compiled code when it exceeds the `int`
width (the wrap-around behavior of the 32-bit targets this code ships
on). -/
def wrap32 (x : Int) : Int :=
  (x + 2147483648) % 4294967296 - 2147483648

/-- Tail of `get_pid`'s digit loop (src/ProcessKiller.c lines 172-180),
with `result` the 32-bit `int` accumulator: each `10 * result + (*s - '0')`
is reduced to the `int` range by `wrap32`.  `isdigit` is `Char.isDigit`. -/
def get_pid_go : List Char → Int → Int
  | [], result => result
  | c :: s, result =>
    if c.isDigit then
      get_pid_go s (wrap32 (10 * result + ((c.toNat : Int) - ('0'.toNat : Int))))
    else -1

/-- Embedding of `get_pid` (src/ProcessKiller.c lines 172-180). -/
def get_pid (s : List Char) : Int := get_pid_go s 0

/-- The unbounded decimal accumulation over the same digits, used to state
what the wrapping loop computes. -/
def decimalAcc : List Char → Int → Int
  | [], r => r
  | c :: s, r => decimalAcc s (10 * r + ((c.toNat : Int) - ('0'.toNat : Int)))

/-- The per-pid holding decision: the short-circuit disjunction at
src/ProcessKiller.c lines 204-208. -/
def holds (st : ProcState) (mountPoint : List Char) : Bool :=
  CheckFileDescriptorSymLinks st mountPoint
    || CheckFileMaps st mountPoint
    || CheckSymLink st.cwd mountPoint
    || CheckSymLink st.root mountPoint
    || CheckSymLink st.exe mountPoint

/-- The five reference kinds, in the order the C disjunction probes them. -/
inductive ProbeKind where
  | openFiles
  | fileMaps
  | cwd
  | root
  | exe
  deriving DecidableEq

/-- The outcome of one probe kind, read off the observable state. -/
def probeResult (st : ProcState) (m : List Char) : ProbeKind → Bool
  | ProbeKind.openFiles => CheckFileDescriptorSymLinks st m
  | ProbeKind.fileMaps => CheckFileMaps st m
  | ProbeKind.cwd => CheckSymLink st.cwd m
  | ProbeKind.root => CheckSymLink st.root m
  | ProbeKind.exe => CheckSymLink st.exe m

/-- The source order of the five probes in the `||` chain. -/
def probeOrder : List ProbeKind :=
  [ProbeKind.openFiles, ProbeKind.fileMaps, ProbeKind.cwd, ProbeKind.root, ProbeKind.exe]

/-- Evaluation-order model of the short-circuit `||` chain: returns the
decision together with the list of probes actually evaluated (evaluation
stops at the first probe that matches). -/
def evalProbes (st : ProcState) (m : List Char) : List ProbeKind → Bool × List ProbeKind
  | [] => (false, [])
  | k :: ks =>
    if probeResult st m k then (true, [k])
    else ((evalProbes st m ks).1, k :: (evalProbes st m ks).2)

/-- The signals the C source can pass to `kill`. -/
inductive Signal where
  | SIGHUP
  | SIGTERM
  | SIGKILL
  deriving DecidableEq

/-- The `kill` calls performed for one holding pid (src/ProcessKiller.c lines
211-217): `action == 1` sends SIGTERM (the log text says SIGHUP but the code
passes SIGTERM), `action == 2` sends SIGKILL, anything else sends nothing. -/
def signalsFor (action : Int) (pid : Int) : List (Int × Signal) :=
  if action = 1 then [(pid, Signal.SIGTERM)]
  else if action = 2 then [(pid, Signal.SIGKILL)]
  else []

/-- One `/proc` directory entry together with the per-pid state the probes
would observe for it. -/
structure ProcEntry where
  name : List Char
  state : ProcState
  deriving DecidableEq

/-- Signals emitted for one `/proc` entry (one iteration of the `readdir`
loop at src/ProcessKiller.c lines 197-219): skip names `get_pid` rejects,
probe, and on a hold dispatch per `action`. -/
def perEntrySignals (mountPoint : List Char) (action : Int) (e : ProcEntry) : List (Int × Signal) :=
  let pid := get_pid e.name
  if pid = -1 then []
  else if holds e.state mountPoint then signalsFor action pid
  else []

/-- Embedding of `KillProcessesWithOpenFiles` (src/ProcessKiller.c lines
189-222), observed through the sequence of `kill` calls it performs.  The
argument is the `/proc` listing: `none` when the top-level `opendir` fails
(the function returns at once, sending nothing). -/
def KillProcessesWithOpenFiles (procDir : Option (List ProcEntry))
    (mountPoint : List Char) (action : Int) : List (Int × Signal) :=
  match procDir with
  | none => []
  | some entries => entries.foldr (fun e acc => perEntrySignals mountPoint action e ++ acc) []

/-- The pids the scan finds holding (in `readdir` order): the entries whose
name parses as a pid and whose state makes some probe match. -/
def holdersOf (entries : List ProcEntry) (m : List Char) : List Int :=
  entries.foldr
    (fun e acc =>
      if get_pid e.name ≠ -1 ∧ holds e.state m then get_pid e.name :: acc else acc)
    []

/-- One diagnostic record as the C log calls emit it on a match: the process
name fetched by `GetProcessName`, the reference kind, and the path the log
line reports (the link target for probes A/B, the mount point itself for
`CheckSymLink`, whose message is `"... has %s in %s", message, mountPoint`). -/
structure HoldLog where
  procName : List Char
  kind : ProbeKind
  path : List Char
  deriving DecidableEq

/-- `CheckFileDescriptorSymLinks` with its log output: the C loop stops at
the first matching entry and emits exactly one record for it. -/
def CheckFileDescriptorSymLinksL (pid : Int) (st : ProcState) (m : List Char) :
    Bool × List HoldLog :=
  match st.fdDir with
  | none => (false, [])
  | some entries =>
    ((entries.find? (fun e => checkFdEntry m e)).isSome,
     match entries.find? (fun e => checkFdEntry m e) with
     | some e =>
       [{ procName := GetProcessName pid st.cmdline
          kind := ProbeKind.openFiles
          path := (ReadSymLink e.2).getD [] }]
     | none => [])

/-- `CheckFileMaps` with its log output: one record for the first matching
maps line. -/
def CheckFileMapsL (pid : Int) (st : ProcState) (m : List Char) : Bool × List HoldLog :=
  match st.maps with
  | none => (false, [])
  | some lines =>
    ((lines.find? (fun l => checkMapsLine m l)).isSome,
     match lines.find? (fun l => checkMapsLine m l) with
     | some l =>
       [{ procName := GetProcessName pid st.cmdline
          kind := ProbeKind.fileMaps
          path := (firstSlashSuffix l).getD [] }]
     | none => [])

/-- `CheckSymLink` with its log output (the log line prints the mount
point). -/
def CheckSymLinkL (pid : Int) (st : ProcState) (v : PathView) (k : ProbeKind) (m : List Char) :
    Bool × List HoldLog :=
  if CheckSymLink v m then
    (true, [{ procName := GetProcessName pid st.cmdline, kind := k, path := m }])
  else (false, [])

/-- The short-circuit probe chain with its log output: the logs of the first
matching probe (a failing probe emits nothing, as in the C code). -/
def holdsL (pid : Int) (st : ProcState) (m : List Char) : Bool × List HoldLog :=
  let a := CheckFileDescriptorSymLinksL pid st m
  if a.1 then a
  else
    let b := CheckFileMapsL pid st m
    if b.1 then b
    else
      let c := CheckSymLinkL pid st st.cwd ProbeKind.cwd m
      if c.1 then c
      else
        let d := CheckSymLinkL pid st st.root ProbeKind.root m
        if d.1 then d
        else CheckSymLinkL pid st st.exe ProbeKind.exe m

/-- A concrete holding state for witnesses: cwd is a symlink into
`/mnt/vol`, everything else unreadable. -/
def sampleHoldingState : ProcState :=
  { fdDir := some []
    maps := some []
    cwd := { lstatKind := some FileKind.symlink, readlinkResult := some "/mnt/vol/sub".toList }
    root := { lstatKind := none, readlinkResult := none }
    exe := { lstatKind := none, readlinkResult := none }
    cmdline := CmdlineRead.openFailed }

/-- A concrete state none of whose probes can match. -/
def sampleIdleState : ProcState :=
  { fdDir := none
    maps := none
    cwd := { lstatKind := none, readlinkResult := none }
    root := { lstatKind := none, readlinkResult := none }
    exe := { lstatKind := none, readlinkResult := none }
    cmdline := CmdlineRead.openFailed }

lemma decimalAcc_nonneg (s : List Char) (r : Int)
    (h : ∀ c ∈ s, c.isDigit = true) (hr : 0 ≤ r) : 0 ≤ decimalAcc s r := by
  induction s generalizing r with
  | nil => simpa [decimalAcc] using hr
  | cons c s ih =>
    have hc : c.isDigit = true := h c (by simp)
    have hc' : (48 : UInt32) ≤ c.val ∧ c.val ≤ 57 := by
      simpa [Char.isDigit, Bool.and_eq_true, decide_eq_true_eq, ge_iff_le] using hc
    have hge : (48 : UInt32) ≤ c.val := hc'.1
    have hnat : (48 : Nat) ≤ c.toNat :=
      UInt32.le_toNat_of_le (by norm_num [UInt32.size]) hge
    have hstep : (0 : Int) ≤ 10 * r + ((c.toNat : Int) - ('0'.toNat : Int)) := by
      have : ((48 : Int)) ≤ (c.toNat : Int) := by exact_mod_cast hnat
      have h0 : ('0'.toNat : Int) = 48 := by decide
      omega
    rw [decimalAcc]
    exact ih _ (fun d hd => h d (List.mem_cons_of_mem _ hd)) hstep

lemma get_pid_go_of_bad (s : List Char) (r : Int)
    (h : ∃ c ∈ s, c.isDigit = false) : get_pid_go s r = -1 := by
  induction s generalizing r with
  | nil => simp at h
  | cons c s ih =>
    rw [get_pid_go]
    by_cases hc : c.isDigit = true
    · rw [if_pos hc]
      apply ih
      rcases h with ⟨d, hd, hbad⟩
      rcases List.mem_cons.mp hd with rfl | hd
      · rw [hc] at hbad; cases hbad
      · exact ⟨d, hd, hbad⟩
    · rw [if_neg hc]

lemma wrap32_emod (x : Int) : wrap32 x % 4294967296 = x % 4294967296 := by
  unfold wrap32
  omega

lemma wrap32_congr (x y : Int) (h : x % 4294967296 = y % 4294967296) :
    wrap32 x = wrap32 y := by
  unfold wrap32
  omega

lemma wrap32_step (y d : Int) :
    wrap32 (10 * wrap32 y + d) = wrap32 (10 * y + d) := by
  apply wrap32_congr
  have h := wrap32_emod y
  omega

lemma wrap32_of_range (x : Int) (h0 : 0 ≤ x) (h1 : x < 2147483648) : wrap32 x = x := by
  unfold wrap32
  omega

lemma wrap32_zero : wrap32 0 = 0 := by decide

lemma get_pid_go_wrap (s : List Char) (h : ∀ c ∈ s, c.isDigit = true) :
    ∀ r : Int, get_pid_go s (wrap32 r) = wrap32 (decimalAcc s r) := by
  induction s with
  | nil => intro r; rfl
  | cons c s ih =>
    intro r
    have hc : c.isDigit = true := h c (by simp)
    rw [get_pid_go, if_pos hc, wrap32_step, decimalAcc]
    exact ih (fun d hd => h d (List.mem_cons_of_mem _ hd)) _

lemma get_pid_eq_wrap (s : List Char) (h : ∀ c ∈ s, c.isDigit = true) :
    get_pid s = wrap32 (decimalAcc s 0) := by
  have h0 : get_pid s = get_pid_go s (wrap32 0) := by rw [wrap32_zero]; rfl
  rw [h0, get_pid_go_wrap s h 0]

example : PathMatchesMountPoint "/mnt/vol/x".toList "/mnt/vol".toList = true := by decide
example : PathMatchesMountPoint "/mnt/foobar".toList "/mnt/foo".toList = false := by decide
example : PathMatchesMountPoint "/mnt/vol".toList "/mnt/vol".toList = true := by decide
example : PathMatchesMountPoint "/anything".toList "/".toList = false := by decide
example : get_pid "42".toList = 42 := by decide
example : get_pid "".toList = 0 := by decide
example : get_pid "4x2".toList = -1 := by decide
example : get_pid "4294967295".toList = -1 := by decide
example : get_pid "2147483647".toList = 2147483647 := by decide
example : checkMapsLine "/mnt/vol".toList ("ab /mnt/vol" ++ "\n").toList = false := by decide
example : checkMapsLine "/mnt/vol".toList ("ab /mnt/vol/x" ++ "\n").toList = true := by decide
example : GetProcessName 0 (CmdlineRead.content []) = [] := by decide
example : GetProcessName 5 CmdlineRead.readFailed = "/proc/5/cmdline".toList := by decide

/-- C1: `PathMatchesMountPoint` follows the four ordered PathMatcher rules:
false when the mount point has length ≤ 1; false when the candidate does not
start with the mount point byte-for-byte; true when the prefix matches and
the mount point ends with `'/'`; otherwise true iff the candidate's byte at
position `length mountPoint` is end-of-string or `'/'`.  In particular no
candidate matches `"/"`, and `"/mnt/foobar"` does not match `"/mnt/foo"`. -/
theorem pathMatchesMountPoint_contract (p mp : List Char) :
    (mp.length ≤ 1 → PathMatchesMountPoint p mp = false)
    ∧ (mp.isPrefixOf p = false → PathMatchesMountPoint p mp = false)
    ∧ (1 < mp.length → mp.isPrefixOf p = true → mp[mp.length - 1]? = some '/' →
        PathMatchesMountPoint p mp = true)
    ∧ (1 < mp.length → mp.isPrefixOf p = true → mp[mp.length - 1]? ≠ some '/' →
        (PathMatchesMountPoint p mp = true ↔
          p[mp.length]? = none ∨ p[mp.length]? = some '/'))
    ∧ PathMatchesMountPoint p "/".toList = false
    ∧ PathMatchesMountPoint "/mnt/foobar".toList "/mnt/foo".toList = false := by
  refine ⟨?_, ?_, ?_, ?_, ?_, by decide⟩
  · intro h
    simp [PathMatchesMountPoint, Nat.not_lt.mpr h]
  · intro h
    simp [PathMatchesMountPoint, h]
  · intro h1 h2 h3
    simp [PathMatchesMountPoint, h1, h2, h3]
  · intro h1 h2 h3
    simp [PathMatchesMountPoint, h1, h2, h3]
  · simp [PathMatchesMountPoint]

/-- Witness for C1 at concrete input: `"/mnt/vol"` matches itself via rule 4
(the byte after the prefix is end-of-string). -/
theorem pathMatchesMountPoint_contract_witness :
    PathMatchesMountPoint "/mnt/vol".toList "/mnt/vol".toList = true := by
  have h := (pathMatchesMountPoint_contract "/mnt/vol".toList "/mnt/vol".toList).2.2.2.1
  exact (h (by decide) (by decide) (by decide)).mpr (Or.inl (by decide))

/-- C4 counterexample: two refutations of the claim as stated.  The empty
entry name is not rejected — `get_pid ""` runs zero loop iterations and
returns the accumulator `0`, not `-1`, so an empty name would be probed as
pid 0 rather than skipped.  And the non-empty all-digit name `"4294967295"`
does not parse to a non-negative pid: the 32-bit `int` accumulator wraps to
`-1` on the last digit, so the program skips that entry. -/
theorem get_pid_empty_counterexample :
    get_pid ([] : List Char) = 0
    ∧ get_pid ([] : List Char) ≠ -1
    ∧ get_pid "4294967295".toList = -1 := by
  exact ⟨rfl, by decide, by decide⟩

/-- C4 (amended): a name containing any non-digit character makes `get_pid`
return `-1`, and such an entry is skipped without probing (its per-pid state
is never consulted and it contributes no signals).  An all-digit name — the
empty name included — is accumulated in wrapping 32-bit `int` arithmetic, so
`get_pid` returns the two's-complement reduction of its unbounded decimal
value: the empty name yields pid 0 (probed, not skipped), every all-digit
name whose decimal value is below 2^31 yields exactly that non-negative
value, and a name whose reduction is `-1` (decimal value ≡ 2^32 - 1 mod
2^32, e.g. `"4294967295"`) is skipped like a non-numeric one. -/
theorem get_pid_digits (s n : List Char) (st : ProcState) (rest : List ProcEntry)
    (m : List Char) (a : Int) :
    ((∃ c ∈ s, c.isDigit = false) → get_pid s = -1)
    ∧ ((∀ c ∈ s, c.isDigit = true) → get_pid s = wrap32 (decimalAcc s 0))
    ∧ ((∀ c ∈ s, c.isDigit = true) → decimalAcc s 0 < 2147483648 →
        0 ≤ get_pid s ∧ get_pid s = decimalAcc s 0)
    ∧ get_pid ([] : List Char) = 0
    ∧ (get_pid n = -1 →
        KillProcessesWithOpenFiles (some ({ name := n, state := st } :: rest)) m a
          = KillProcessesWithOpenFiles (some rest) m a) := by
  refine ⟨fun h => get_pid_go_of_bad s 0 h, fun h => get_pid_eq_wrap s h,
    fun h hlt => ?_, rfl, fun h => ?_⟩
  · have hv : 0 ≤ decimalAcc s 0 := decimalAcc_nonneg s 0 h le_rfl
    have he : get_pid s = decimalAcc s 0 := by
      rw [get_pid_eq_wrap s h, wrap32_of_range _ hv hlt]
    exact ⟨by rw [he]; exact hv, he⟩
  · simp [KillProcessesWithOpenFiles, perEntrySignals, h]

/-- Witness for C4: `"42"` is all digits with value below 2^31, so it parses
to exactly 42 ≥ 0; an entry named `"4x2"` is skipped (no signals) whatever
its state holds. -/
theorem get_pid_digits_witness :
    (0 ≤ get_pid "42".toList ∧ get_pid "42".toList = decimalAcc "42".toList 0)
    ∧ KillProcessesWithOpenFiles
        (some [{ name := "4x2".toList, state := sampleHoldingState }]) "/mnt/vol".toList 2
      = KillProcessesWithOpenFiles (some []) "/mnt/vol".toList 2 := by
  constructor
  · exact (get_pid_digits "42".toList [] sampleIdleState [] [] 0).2.2.1
      (by decide) (by decide)
  · exact (get_pid_digits [] "4x2".toList sampleHoldingState [] "/mnt/vol".toList 2).2.2.2.2
      (by decide)

/-- C6: `ReadSymLink` returns a target iff the path's `lstat` succeeds and
reports a symlink and the `readlink` step succeeds with positive length; a
regular file, directory, missing entry, or a failure of either syscall
yields `none`; and a returned target is the raw target truncated to at most
`PATH_MAX - 1` bytes (within the platform maximum), NUL-terminated at that
length. -/
theorem readSymLink_contract (v : PathView) :
    ((ReadSymLink v).isSome = true ↔
      v.lstatKind = some FileKind.symlink ∧ ∃ t, v.readlinkResult = some t ∧ 0 < t.length)
    ∧ (∀ r, ReadSymLink v = some r →
        ∃ t, v.readlinkResult = some t ∧ r = t.take (PATH_MAX - 1)
          ∧ r.length ≤ PATH_MAX - 1) := by
  obtain ⟨lk, rl⟩ := v
  constructor
  · match lk with
    | none => simp [ReadSymLink]
    | some FileKind.regular => simp [ReadSymLink]
    | some FileKind.directory => simp [ReadSymLink]
    | some FileKind.other => simp [ReadSymLink]
    | some FileKind.symlink =>
      match rl with
      | none => simp [ReadSymLink]
      | some t =>
        by_cases ht : t.length = 0
        · simp [ReadSymLink, ht]
        · simp [ReadSymLink, ht, Nat.pos_of_ne_zero ht]
  · intro r hr
    match lk with
    | none => simp [ReadSymLink] at hr
    | some FileKind.regular => simp [ReadSymLink] at hr
    | some FileKind.directory => simp [ReadSymLink] at hr
    | some FileKind.other => simp [ReadSymLink] at hr
    | some FileKind.symlink =>
      match rl with
      | none => simp [ReadSymLink] at hr
      | some t =>
        by_cases ht : t.length = 0
        · simp [ReadSymLink, ht] at hr
        · refine ⟨t, rfl, ?_, ?_⟩
          · simpa [ReadSymLink, ht] using hr.symm
          · have : r = t.take (PATH_MAX - 1) := by
              simpa [ReadSymLink, ht] using hr.symm
            rw [this, List.length_take]
            exact min_le_left _ _

/-- Witness for C6: a symlink view with target `"/a"` yields a result. -/
theorem readSymLink_contract_witness :
    (ReadSymLink { lstatKind := some FileKind.symlink,
                   readlinkResult := some "/a".toList }).isSome = true := by
  exact (readSymLink_contract _).1.mpr ⟨rfl, "/a".toList, rfl, by decide⟩

lemma evalProbes_spec (st : ProcState) (m : List Char) (ks : List ProbeKind) :
    evalProbes st m ks =
      (ks.any (probeResult st m),
       ks.takeWhile (fun k => !probeResult st m k)
         ++ (ks.dropWhile (fun k => !probeResult st m k)).take 1) := by
  induction ks with
  | nil => simp [evalProbes]
  | cons k ks ih =>
    by_cases hk : probeResult st m k = true
    · simp [evalProbes, hk]
    · have hk' : probeResult st m k = false := by
        cases h : probeResult st m k
        · rfl
        · exact absurd h hk
      simp [evalProbes, hk', ih]

lemma kill_some_cons (e : ProcEntry) (entries : List ProcEntry) (m : List Char) (a : Int) :
    KillProcessesWithOpenFiles (some (e :: entries)) m a
      = perEntrySignals m a e ++ KillProcessesWithOpenFiles (some entries) m a := rfl

lemma holdersOf_cons (e : ProcEntry) (entries : List ProcEntry) (m : List Char) :
    holdersOf (e :: entries) m
      = if get_pid e.name ≠ -1 ∧ holds e.state m
        then get_pid e.name :: holdersOf entries m
        else holdersOf entries m := rfl

lemma kill_action_signal (entries : List ProcEntry) (m : List Char) (a : Int) (sig : Signal)
    (hsig : ∀ pid : Int, signalsFor a pid = [(pid, sig)]) :
    KillProcessesWithOpenFiles (some entries) m a
      = (holdersOf entries m).map (fun p => (p, sig)) := by
  induction entries with
  | nil => rfl
  | cons e entries ih =>
    rw [kill_some_cons, ih, holdersOf_cons]
    by_cases hpid : get_pid e.name = -1
    · simp [perEntrySignals, hpid]
    · by_cases hh : holds e.state m = true
      · simp [perEntrySignals, hpid, hh, hsig]
      · simp [perEntrySignals, hpid, hh]

lemma kill_action_other (pd : Option (List ProcEntry)) (m : List Char) (a : Int)
    (h1 : a ≠ 1) (h2 : a ≠ 2) : KillProcessesWithOpenFiles pd m a = [] := by
  match pd with
  | none => rfl
  | some entries =>
    induction entries with
    | nil => rfl
    | cons e entries ih =>
      rw [kill_some_cons, ih]
      simp [perEntrySignals, signalsFor, h1, h2]

/-- C2: the per-process holding decision is true iff at least one of the five
probes — open fds (A), maps (B), cwd (C), root (D), exe (E) — individually
returns true; and the instrumented evaluation of the short-circuit chain
probes them in exactly that order, its trace being the non-matching probes
up to and including the first match. -/
theorem holds_probes_order (st : ProcState) (m : List Char) :
    (holds st m = true ↔
      CheckFileDescriptorSymLinks st m = true ∨ CheckFileMaps st m = true
        ∨ CheckSymLink st.cwd m = true ∨ CheckSymLink st.root m = true
        ∨ CheckSymLink st.exe m = true)
    ∧ (evalProbes st m probeOrder).1 = holds st m
    ∧ (evalProbes st m probeOrder).2
        = probeOrder.takeWhile (fun k => !probeResult st m k)
          ++ (probeOrder.dropWhile (fun k => !probeResult st m k)).take 1 := by
  refine ⟨?_, ?_, ?_⟩
  · simp only [holds, Bool.or_eq_true]
    tauto
  · rw [evalProbes_spec]
    simp [probeOrder, probeResult, holds, Bool.or_assoc]
  · rw [evalProbes_spec]

/-- Witness for C2: the sample state holds via the cwd probe alone. -/
theorem holds_probes_order_witness :
    holds sampleHoldingState "/mnt/vol".toList = true := by
  exact (holds_probes_order sampleHoldingState "/mnt/vol".toList).1.mpr
    (Or.inr (Or.inr (Or.inl (by decide))))

/-- C3: for every process found holding, action 0 sends no signal, action 1
sends SIGTERM (the graceful-termination signal — not SIGHUP, despite the log
text), and action 2 sends SIGKILL; each holder receives exactly that
signal. -/
theorem evictHolders_signals (entries : List ProcEntry) (m : List Char) :
    KillProcessesWithOpenFiles (some entries) m 0 = []
    ∧ KillProcessesWithOpenFiles (some entries) m 1
        = (holdersOf entries m).map (fun p => (p, Signal.SIGTERM))
    ∧ KillProcessesWithOpenFiles (some entries) m 2
        = (holdersOf entries m).map (fun p => (p, Signal.SIGKILL))
    ∧ ∀ s ∈ KillProcessesWithOpenFiles (some entries) m 1,
        s.2 = Signal.SIGTERM ∧ s.2 ≠ Signal.SIGHUP := by
  have hterm : KillProcessesWithOpenFiles (some entries) m 1
      = (holdersOf entries m).map (fun p => (p, Signal.SIGTERM)) :=
    kill_action_signal entries m 1 Signal.SIGTERM (fun pid => rfl)
  refine ⟨kill_action_other _ m 0 (by decide) (by decide), hterm,
    kill_action_signal entries m 2 Signal.SIGKILL (fun pid => rfl), ?_⟩
  intro s hs
  rw [hterm] at hs
  rcases List.mem_map.mp hs with ⟨p, _, rfl⟩
  exact ⟨rfl, by simp⟩

/-- Witness for C3: a holding pid 42 receives SIGTERM under action 1. -/
theorem evictHolders_signals_witness :
    ((42 : Int), Signal.SIGTERM).2 = Signal.SIGTERM
    ∧ ((42 : Int), Signal.SIGTERM).2 ≠ Signal.SIGHUP := by
  exact (evictHolders_signals [{ name := "42".toList, state := sampleHoldingState }]
    "/mnt/vol".toList).2.2.2 ((42 : Int), Signal.SIGTERM) (by decide)

/-- C10: any action other than 1 and 2 — 0, 3, -1, anything — delivers no
signal to any process, even when processes are found holding. -/
theorem evictHolders_other_actions (pd : Option (List ProcEntry)) (m : List Char) (a : Int)
    (h1 : a ≠ 1) (h2 : a ≠ 2) : KillProcessesWithOpenFiles pd m a = [] :=
  kill_action_other pd m a h1 h2

lemma firstSlashSuffix_append (pre l : List Char) (h : ∀ c ∈ pre, c ≠ '/') :
    firstSlashSuffix (pre ++ l) = firstSlashSuffix l := by
  induction pre with
  | nil => rfl
  | cons c pre ih =>
    have hc : c ≠ '/' := h c (by simp)
    rw [List.cons_append, firstSlashSuffix, if_neg hc]
    exact ih (fun d hd => h d (by simp [hd]))

lemma firstSlashSuffix_none (l : List Char) (h : ∀ c ∈ l, c ≠ '/') :
    firstSlashSuffix l = none := by
  induction l with
  | nil => rfl
  | cons c l ih =>
    rw [firstSlashSuffix, if_neg (h c (by simp))]
    exact ih (fun d hd => h d (by simp [hd]))

lemma pathMatches_append_slash (mp rest : List Char) (h : 1 < mp.length) :
    PathMatchesMountPoint (mp ++ '/' :: rest) mp = true := by
  have hpre : mp.isPrefixOf (mp ++ '/' :: rest) = true := by
    rw [List.isPrefixOf_iff_prefix]
    exact List.prefix_append _ _
  have hget : (mp ++ '/' :: rest)[mp.length]? = some '/' := by
    rw [List.getElem?_append_right (le_refl mp.length)]
    simp
  simp [PathMatchesMountPoint, h, hpre, hget]

lemma pathMatches_append_single (mp : List Char) (c : Char)
    (h2 : mp[mp.length - 1]? ≠ some '/') (hc : c ≠ '/') :
    PathMatchesMountPoint (mp ++ [c]) mp = false := by
  by_cases h1 : 1 < mp.length
  · have hpre : mp.isPrefixOf (mp ++ [c]) = true := by
      rw [List.isPrefixOf_iff_prefix]
      exact List.prefix_append _ _
    have hget : (mp ++ [c])[mp.length]? = some c := by
      rw [List.getElem?_append_right (le_refl mp.length)]
      simp
    simp [PathMatchesMountPoint, h1, hpre, hget, h2, hc]
  · simp [PathMatchesMountPoint, h1]

/-- C5 (amended): a maps line's candidate path is its suffix from the first
`'/'`; a line with no `'/'` never matches; the probe reports a hold iff that
suffix matches per the PathMatcher.  Because `fgets` keeps the line
terminator in that suffix, a pathname lying strictly inside the mount point
matches, but a pathname exactly equal to a mount point without trailing
slash does not (the newline byte defeats the boundary check). -/
theorem checkFileMaps_extraction (m line pre rest : List Char) :
    ((∀ c ∈ line, c ≠ '/') → checkMapsLine m line = false)
    ∧ ((∀ c ∈ pre, c ≠ '/') →
        checkMapsLine m (pre ++ '/' :: rest) = PathMatchesMountPoint ('/' :: rest) m)
    ∧ (1 < m.length → m.head? = some '/' → (∀ c ∈ pre, c ≠ '/') →
        checkMapsLine m (pre ++ (m ++ '/' :: rest)) = true)
    ∧ (m.head? = some '/' → m[m.length - 1]? ≠ some '/' → (∀ c ∈ pre, c ≠ '/') →
        checkMapsLine m (pre ++ (m ++ [Char.ofNat 10])) = false) := by
  refine ⟨fun h => ?_, fun h => ?_, fun h1 hhead h => ?_, fun hhead h2 h => ?_⟩
  · rw [checkMapsLine, firstSlashSuffix_none line h]
  · rw [checkMapsLine, firstSlashSuffix_append pre _ h, firstSlashSuffix]
    simp
  · obtain ⟨mtail, rfl⟩ : ∃ mtail, m = '/' :: mtail := by
      cases m with
      | nil => simp at hhead
      | cons a mtail => exact ⟨mtail, by simpa using congrArg (fun o => o.getD 'x') hhead⟩
    rw [checkMapsLine, firstSlashSuffix_append pre _ h, List.cons_append, firstSlashSuffix,
      if_pos rfl, ← List.cons_append]
    exact pathMatches_append_slash _ rest h1
  · obtain ⟨mtail, rfl⟩ : ∃ mtail, m = '/' :: mtail := by
      cases m with
      | nil => simp at hhead
      | cons a mtail => exact ⟨mtail, by simpa using congrArg (fun o => o.getD 'x') hhead⟩
    rw [checkMapsLine, firstSlashSuffix_append pre _ h, List.cons_append, firstSlashSuffix,
      if_pos rfl, ← List.cons_append]
    exact pathMatches_append_single _ _ h2 (by decide)

/-- C5 counterexample: a maps line whose pathname (the bytes from the first
`'/'` up to the line terminator) is exactly the mount point does NOT match,
because the extracted suffix still carries the `'\n'` that `fgets` kept —
even though the matcher accepts that very pathname without the newline. -/
theorem checkFileMaps_equal_path_counterexample :
    firstSlashSuffix ("ab /mnt/vol" ++ "\n").toList = some ("/mnt/vol" ++ "\n").toList
    ∧ checkMapsLine "/mnt/vol".toList ("ab /mnt/vol" ++ "\n").toList = false
    ∧ PathMatchesMountPoint "/mnt/vol".toList "/mnt/vol".toList = true
    ∧ CheckFileMaps
        { sampleIdleState with maps := some [("ab /mnt/vol" ++ "\n").toList] }
        "/mnt/vol".toList = false := by
  exact ⟨by decide, by decide, by decide, by decide⟩

/-- Witness for C5: a pathname strictly inside the mount point matches even
with the trailing newline. -/
theorem checkFileMaps_extraction_witness :
    checkMapsLine "/mnt/vol".toList
      ("ab ".toList ++ ("/mnt/vol".toList ++ '/' :: "x".toList)) = true := by
  exact (checkFileMaps_extraction "/mnt/vol".toList [] "ab ".toList "x".toList).2.2.1
    (by decide) (by decide) (by decide)

/-- Witness for C10: a holding process, actions 3 and -1 send nothing. -/
theorem evictHolders_other_actions_witness :
    holds sampleHoldingState "/mnt/vol".toList = true
    ∧ KillProcessesWithOpenFiles
        (some [{ name := "7".toList, state := sampleHoldingState }]) "/mnt/vol".toList 3 = []
    ∧ KillProcessesWithOpenFiles
        (some [{ name := "7".toList, state := sampleHoldingState }]) "/mnt/vol".toList (-1)
        = [] := by
  exact ⟨by decide, evictHolders_other_actions _ _ 3 (by decide) (by decide),
    evictHolders_other_actions _ _ (-1) (by decide) (by decide)⟩

/-- C7: every per-process I/O failure is absorbed as "does not hold" — an
unopenable fd directory, an unopenable maps file, or a vanished/unreadable
symlink each make the affected probe return false, and a failed fd entry
leaves the scan of the remaining entries unchanged; when the top-level
`/proc` enumeration cannot be opened the Evictor returns at once with no
signals. -/
theorem io_failure_absorbed (st : ProcState) (m : List Char) (v : PathView)
    (e : List Char × PathView) (rest : List (List Char × PathView)) (a : Int) :
    (st.fdDir = none → CheckFileDescriptorSymLinks st m = false)
    ∧ (st.maps = none → CheckFileMaps st m = false)
    ∧ (ReadSymLink v = none → CheckSymLink v m = false)
    ∧ (ReadSymLink e.2 = none → ∀ st2 : ProcState, st2.fdDir = some (e :: rest) →
        CheckFileDescriptorSymLinks st2 m = rest.any (checkFdEntry m))
    ∧ KillProcessesWithOpenFiles none m a = [] := by
  refine ⟨fun h => ?_, fun h => ?_, fun h => ?_, fun h st2 h2 => ?_, rfl⟩
  · simp [CheckFileDescriptorSymLinks, h]
  · simp [CheckFileMaps, h]
  · simp [CheckSymLink, h]
  · simp [CheckFileDescriptorSymLinks, h2, checkFdEntry, h]

/-- Witness for C7: the all-failures state holds nothing and `/proc` being
unopenable sends nothing. -/
theorem io_failure_absorbed_witness :
    CheckFileDescriptorSymLinks sampleIdleState "/mnt/vol".toList = false
    ∧ CheckFileMaps sampleIdleState "/mnt/vol".toList = false
    ∧ KillProcessesWithOpenFiles none "/mnt/vol".toList 2 = [] := by
  refine ⟨?_, ?_, ?_⟩
  · exact (io_failure_absorbed sampleIdleState "/mnt/vol".toList
      { lstatKind := none, readlinkResult := none }
      ("0".toList, { lstatKind := none, readlinkResult := none }) [] 0).1 rfl
  · exact (io_failure_absorbed sampleIdleState "/mnt/vol".toList
      { lstatKind := none, readlinkResult := none }
      ("0".toList, { lstatKind := none, readlinkResult := none }) [] 0).2.1 rfl
  · exact (io_failure_absorbed sampleIdleState "/mnt/vol".toList
      { lstatKind := none, readlinkResult := none }
      ("0".toList, { lstatKind := none, readlinkResult := none }) [] 2).2.2.2.2

/-- C8 counterexample: two read failures the claim maps to `"???"` that the
code does not.  An empty (zero-byte) command line: the `open` succeeds,
`read` returns 0, `buffer[0] = 0`, and the resolver returns the empty
string.  A `read` that fails after a successful `open`: `length` is `-1`,
`buffer[-1] = 0` writes out of bounds, and the resolver returns the
`sprintf`'d `"/proc/<pid>/cmdline"` path still sitting in the buffer. -/
theorem getProcessName_empty_counterexample :
    GetProcessName 5 (CmdlineRead.content ([] : List Char)) = []
    ∧ GetProcessName 5 (CmdlineRead.content ([] : List Char)) ≠ "???".toList
    ∧ GetProcessName 5 CmdlineRead.readFailed = "/proc/5/cmdline".toList
    ∧ GetProcessName 5 CmdlineRead.readFailed ≠ "???".toList := by
  exact ⟨rfl, by decide, by decide, by decide⟩

/-- C8 (amended): the resolver returns the literal `"???"` exactly when the
`open` of the command-line file fails (missing, permission denied).  When
the `open` succeeds but the `read` then fails, the code writes `buffer[-1]`
(out of bounds) and returns the leftover `sprintf`'d `"/proc/<pid>/cmdline"`
path, not `"???"`.  When the `read` succeeds it returns the command line
truncated to `PATH_MAX - 1` bytes and cut at the first NUL (hence NUL-free,
within the buffer bound, and the identity on short NUL-free command lines)
— in particular the empty command line yields the empty string. -/
theorem getProcessName_contract (pid : Int) (l : List Char) :
    GetProcessName pid CmdlineRead.openFailed = "???".toList
    ∧ GetProcessName pid CmdlineRead.readFailed = procCmdlinePath pid
    ∧ GetProcessName pid (CmdlineRead.content l)
        = (l.take (PATH_MAX - 1)).takeWhile (fun ch => ch != Char.ofNat 0)
    ∧ (GetProcessName pid (CmdlineRead.content l)).length ≤ PATH_MAX - 1
    ∧ Char.ofNat 0 ∉ GetProcessName pid (CmdlineRead.content l)
    ∧ (Char.ofNat 0 ∉ l → l.length ≤ PATH_MAX - 1 →
        GetProcessName pid (CmdlineRead.content l) = l)
    ∧ GetProcessName pid (CmdlineRead.content ([] : List Char)) = [] := by
  refine ⟨rfl, rfl, rfl, ?_, ?_, fun h1 h2 => ?_, rfl⟩
  · calc (GetProcessName pid (CmdlineRead.content l)).length
        ≤ (l.take (PATH_MAX - 1)).length := (List.takeWhile_prefix _).length_le
      _ ≤ PATH_MAX - 1 := by rw [List.length_take]; exact min_le_left _ _
  · intro hmem
    have := List.mem_takeWhile_imp hmem
    simp at this
  · show (l.take (PATH_MAX - 1)).takeWhile (fun ch => ch != Char.ofNat 0) = l
    rw [List.take_of_length_le h2, List.takeWhile_eq_self_iff.mpr]
    intro x hx
    simp only [bne_iff_ne, ne_eq]
    exact fun hxe => h1 (hxe ▸ hx)

/-- Witness for C8: a short NUL-free command line is returned verbatim. -/
theorem getProcessName_contract_witness :
    GetProcessName 7 (CmdlineRead.content "vold".toList) = "vold".toList := by
  exact (getProcessName_contract 7 "vold".toList).2.2.2.2.2.1 (by decide) (by decide)

lemma checkFdL_fst (pid : Int) (st : ProcState) (m : List Char) :
    (CheckFileDescriptorSymLinksL pid st m).1 = CheckFileDescriptorSymLinks st m := by
  rw [CheckFileDescriptorSymLinksL, CheckFileDescriptorSymLinks]
  cases st.fdDir with
  | none => rfl
  | some entries =>
    show (entries.find? (fun e => checkFdEntry m e)).isSome = entries.any (checkFdEntry m)
    rw [Bool.eq_iff_iff, List.find?_isSome, List.any_eq_true]

lemma checkMapsL_fst (pid : Int) (st : ProcState) (m : List Char) :
    (CheckFileMapsL pid st m).1 = CheckFileMaps st m := by
  rw [CheckFileMapsL, CheckFileMaps]
  cases st.maps with
  | none => rfl
  | some lines =>
    show (lines.find? (fun l => checkMapsLine m l)).isSome = lines.any (checkMapsLine m)
    rw [Bool.eq_iff_iff, List.find?_isSome, List.any_eq_true]

lemma checkSymLinkL_fst (pid : Int) (st : ProcState) (v : PathView) (k : ProbeKind)
    (m : List Char) : (CheckSymLinkL pid st v k m).1 = CheckSymLink v m := by
  rw [CheckSymLinkL]
  by_cases h : CheckSymLink v m = true
  · rw [if_pos h, h]
  · rw [if_neg h]
    cases hb : CheckSymLink v m
    · rfl
    · exact absurd hb h

lemma checkSymLinkL_false_logs (pid : Int) (st : ProcState) (v : PathView) (k : ProbeKind)
    (m : List Char) (h : (CheckSymLinkL pid st v k m).1 = false) :
    (CheckSymLinkL pid st v k m).2 = [] := by
  rw [CheckSymLinkL] at h ⊢
  by_cases hb : CheckSymLink v m = true
  · rw [if_pos hb] at h
    cases h
  · rw [if_neg hb]

lemma cascade_fst (a b c d e : Bool × List HoldLog) :
    (if a.1 = true then a else if b.1 = true then b else if c.1 = true then c
      else if d.1 = true then d else e).1
      = (a.1 || b.1 || c.1 || d.1 || e.1) := by
  by_cases ha : a.1 = true <;> by_cases hb : b.1 = true <;>
    by_cases hc : c.1 = true <;> by_cases hd : d.1 = true <;>
      simp [ha, hb, hc, hd]

lemma cascade_logs (a b c d e : Bool × List HoldLog) (he2 : e.1 = false → e.2 = [])
    (h : (if a.1 = true then a else if b.1 = true then b else if c.1 = true then c
      else if d.1 = true then d else e).2 ≠ []) :
    (if a.1 = true then a else if b.1 = true then b else if c.1 = true then c
      else if d.1 = true then d else e).1 = true := by
  by_cases ha : a.1 = true
  · rwa [if_pos ha]
  · rw [if_neg ha] at h ⊢
    by_cases hb : b.1 = true
    · rwa [if_pos hb]
    · rw [if_neg hb] at h ⊢
      by_cases hc : c.1 = true
      · rwa [if_pos hc]
      · rw [if_neg hc] at h ⊢
        by_cases hd : d.1 = true
        · rwa [if_pos hd]
        · rw [if_neg hd] at h ⊢
          cases hx : e.1
          · exact absurd (he2 hx) h
          · rfl

lemma holdsL_fst (pid : Int) (st : ProcState) (m : List Char) :
    (holdsL pid st m).1 = holds st m := by
  have h := cascade_fst (CheckFileDescriptorSymLinksL pid st m) (CheckFileMapsL pid st m)
    (CheckSymLinkL pid st st.cwd ProbeKind.cwd m)
    (CheckSymLinkL pid st st.root ProbeKind.root m)
    (CheckSymLinkL pid st st.exe ProbeKind.exe m)
  have h2 : ((CheckFileDescriptorSymLinksL pid st m).1 || (CheckFileMapsL pid st m).1
      || (CheckSymLinkL pid st st.cwd ProbeKind.cwd m).1
      || (CheckSymLinkL pid st st.root ProbeKind.root m).1
      || (CheckSymLinkL pid st st.exe ProbeKind.exe m).1) = holds st m := by
    rw [checkFdL_fst, checkMapsL_fst, checkSymLinkL_fst, checkSymLinkL_fst,
      checkSymLinkL_fst, holds]
  exact h.trans h2

lemma holdsL_logs_imp (pid : Int) (st : ProcState) (m : List Char)
    (h : (holdsL pid st m).2 ≠ []) : (holdsL pid st m).1 = true := by
  exact cascade_logs (CheckFileDescriptorSymLinksL pid st m) (CheckFileMapsL pid st m)
    (CheckSymLinkL pid st st.cwd ProbeKind.cwd m)
    (CheckSymLinkL pid st st.root ProbeKind.root m)
    (CheckSymLinkL pid st st.exe ProbeKind.exe m)
    (checkSymLinkL_false_logs pid st st.exe ProbeKind.exe m) h

/-- C9: the holding decision never depends on the command-line contents —
two states differing only in what the cmdline read returns (its content, or
either kind of failure) give the same result from every probe and from
`holds`; and the process name feeds only the log records, which exist only
when the decision is already positive. -/
theorem holds_independent_of_cmdline (pid : Int) (fd : Option (List (List Char × PathView)))
    (mps : Option (List (List Char))) (cw rt ex : PathView)
    (cl cl' : CmdlineRead) (m : List Char) :
    holds ⟨fd, mps, cw, rt, ex, cl⟩ m = holds ⟨fd, mps, cw, rt, ex, cl'⟩ m
    ∧ CheckFileDescriptorSymLinks ⟨fd, mps, cw, rt, ex, cl⟩ m
        = CheckFileDescriptorSymLinks ⟨fd, mps, cw, rt, ex, cl'⟩ m
    ∧ CheckFileMaps ⟨fd, mps, cw, rt, ex, cl⟩ m = CheckFileMaps ⟨fd, mps, cw, rt, ex, cl'⟩ m
    ∧ (holdsL pid ⟨fd, mps, cw, rt, ex, cl⟩ m).1
        = (holdsL pid ⟨fd, mps, cw, rt, ex, cl'⟩ m).1
    ∧ ((holdsL pid ⟨fd, mps, cw, rt, ex, cl⟩ m).2 ≠ [] →
        (holdsL pid ⟨fd, mps, cw, rt, ex, cl⟩ m).1 = true) := by
  have h2 : CheckFileDescriptorSymLinks ⟨fd, mps, cw, rt, ex, cl⟩ m
      = CheckFileDescriptorSymLinks ⟨fd, mps, cw, rt, ex, cl'⟩ m := by
    rw [CheckFileDescriptorSymLinks, CheckFileDescriptorSymLinks]
  have h3 : CheckFileMaps ⟨fd, mps, cw, rt, ex, cl⟩ m
      = CheckFileMaps ⟨fd, mps, cw, rt, ex, cl'⟩ m := by
    rw [CheckFileMaps, CheckFileMaps]
  have h1 : holds ⟨fd, mps, cw, rt, ex, cl⟩ m = holds ⟨fd, mps, cw, rt, ex, cl'⟩ m := by
    rw [holds, holds, h2, h3]
  refine ⟨h1, h2, h3, ?_, holdsL_logs_imp pid _ m⟩
  rw [holdsL_fst, holdsL_fst]
  exact h1

/-- Witness for C9: the sample holding state's decision is unchanged whether
the cmdline reads as `"vold"` or either syscall fails, and its log is
non-empty only because it holds. -/
theorem holds_independent_of_cmdline_witness :
    holds { sampleHoldingState with cmdline := CmdlineRead.content "vold".toList }
        "/mnt/vol".toList
      = holds { sampleHoldingState with cmdline := CmdlineRead.readFailed } "/mnt/vol".toList
    ∧ (holdsL 42 sampleHoldingState "/mnt/vol".toList).1 = true := by
  constructor
  · exact (holds_independent_of_cmdline 42 (some []) (some [])
      { lstatKind := some FileKind.symlink, readlinkResult := some "/mnt/vol/sub".toList }
      { lstatKind := none, readlinkResult := none }
      { lstatKind := none, readlinkResult := none }
      (CmdlineRead.content "vold".toList) CmdlineRead.readFailed "/mnt/vol".toList).1
  · exact (holds_independent_of_cmdline 42 (some []) (some [])
      { lstatKind := some FileKind.symlink, readlinkResult := some "/mnt/vol/sub".toList }
      { lstatKind := none, readlinkResult := none }
      { lstatKind := none, readlinkResult := none }
      CmdlineRead.openFailed CmdlineRead.openFailed "/mnt/vol".toList).2.2.2.2 (by decide)

end ProcessKiller
